import Mathlib

set_option maxRecDepth 16000

/-!
Verification of the proxy client core (`src/tun2socks/engine/proxyclient.go`
and `src/tun2socks/engine/android.go`): the DNS/ECH bootstrap parsers, the
HTTP proxy first-frame construction, the per-connection protocol dispatch,
the WebSocket dial retry policy and the status reporting.

Modelling conventions: Go byte strings (`[]byte` and byte-oriented
`string`s) are `List Nat`, one element per byte; textual Go strings are
Lean `String`s.  Network effects are abstracted by explicit oracles and
event traces.  Functions returning `(T, error)` become `Except String T`.
For the DNS parsers a second, `Option`-instrumented variant models Go's
panic-on-out-of-range slicing: a `none` result marks an out-of-bounds
access, and the safety theorem shows the instrumented parsers always
return `some` of the plain result.
-/

/-- Big-endian 16-bit read, `binary.BigEndian.Uint16(r[i:i+2])`.  Reads out
of range produce 0 here; the instrumented variant `be16C` models the panic
Go would raise instead, and the safety theorem shows the parsers never
perform such a read. -/
def be16 (r : List Nat) (i : Nat) : Nat :=
  r.getD i 0 * 256 + r.getD (i + 1) 0

/-- Alphabet of `encoding/base64.StdEncoding`. -/
def b64Alphabet : List Char :=
  "ABCDEFGHIJKLMNOPQRSTUVWXYZabcdefghijklmnopqrstuvwxyz0123456789+/".toList

/-- Character for a 6-bit group, as indexed into the standard alphabet. -/
def b64c (n : Nat) : Char := b64Alphabet.getD n (Char.ofNat 65)

/-- Padding character of standard base64 encoding. -/
def padChar : Char := Char.ofNat 61

/-- Character stream of `base64.StdEncoding.EncodeToString`: groups of three
bytes become four alphabet characters, with the final one- or two-byte group
padded by `=`. -/
def b64chars : List Nat → List Char
  | [] => []
  | [a] => [b64c (a / 4), b64c (a % 4 * 16), padChar, padChar]
  | [a, b] => [b64c (a / 4), b64c (a % 4 * 16 + b / 16), b64c (b % 16 * 4), padChar]
  | a :: b :: cc :: rest =>
      b64c (a / 4) :: b64c (a % 4 * 16 + b / 16) :: b64c (b % 16 * 4 + cc / 64) ::
        b64c (cc % 64) :: b64chars rest

/-- Model of `base64.StdEncoding.EncodeToString`. -/
def base64Encode (bs : List Nat) : String := String.mk (b64chars bs)

/-- Value of one base64 character (`none` for characters outside the
alphabet, including the padding character). -/
def b64v (cx : Char) : Option Nat := b64Alphabet.findIdx? (fun d => d = cx)

/-- Model of `base64.StdEncoding.DecodeString` on a character stream:
groups of four characters decode to three bytes, a final group may carry
one or two padding characters, and any other shape is an error (`none`). -/
def b64decChars : List Char → Option (List Nat)
  | [] => some []
  | c1 :: c2 :: c3 :: c4 :: rest =>
    if c4 = padChar then
      if rest = [] then
        match b64v c1, b64v c2 with
        | some v1, some v2 =>
          if c3 = padChar then some [v1 * 4 + v2 / 16]
          else
            match b64v c3 with
            | some v3 => some [v1 * 4 + v2 / 16, v2 % 16 * 16 + v3 / 4]
            | none => none
        | _, _ => none
      else none
    else
      match b64v c1, b64v c2, b64v c3, b64v c4 with
      | some v1, some v2, some v3, some v4 =>
        match b64decChars rest with
        | some tail =>
            some ((v1 * 4 + v2 / 16) :: (v2 % 16 * 16 + v3 / 4) :: (v3 % 4 * 64 + v4) :: tail)
        | none => none
      | _, _, _, _ => none
  | _ => none

/-- Model of `base64.StdEncoding.DecodeString`, as used by `prepareECH`. -/
def base64Decode (s : String) : Option (List Nat) := b64decChars s.toList

/-- Label-skipping loop shared by `parseDNSResponse` (QNAME skip and the
uncompressed owner-name case) and `parseHTTPSRecord` (TargetName case):
`for offset < len(r) && r[offset] != 0 { offset += int(r[offset]) + 1 }`. -/
def skipName (r : List Nat) (offset : Nat) : Nat :=
  if h1 : offset < r.length then
    if h2 : r.getD offset 0 ≠ 0 then skipName r (offset + r.getD offset 0 + 1) else offset
  else offset
termination_by r.length - offset
decreasing_by omega

/-- SvcParam loop of `parseHTTPSRecord`: while four header bytes remain,
read `{key:u16, len:u16}`, stop on a truncated value, and return the
base64-encoded value of the first key-5 (`ech`) parameter. -/
def paramLoop (data : List Nat) (offset : Nat) : String :=
  if h : offset + 4 ≤ data.length then
    if offset + 4 + be16 data (offset + 2) > data.length then ""
    else
      if be16 data offset = 5 then
        base64Encode ((data.drop (offset + 4)).take (be16 data (offset + 2)))
      else paramLoop data (offset + 4 + be16 data (offset + 2))
  else ""
termination_by data.length - offset
decreasing_by omega

/-- TargetName skip at offset 2 of the HTTPS RDATA in `parseHTTPSRecord`:
one byte when it is 0 (root name), otherwise the same label loop as
`skipName` followed by one more byte.  Note the Go code has no
compression-pointer case here: a 0xC0 byte is treated as a label length. -/
def skipTarget (data : List Nat) : Nat :=
  if 2 < data.length ∧ data.getD 2 0 = 0 then 3 else skipName data 2 + 1

/-- Model of `parseHTTPSRecord`: skip the 2-byte SvcPriority and the
TargetName, then scan SvcParams for key 5. -/
def parseHTTPSRecord (data : List Nat) : String :=
  if data.length < 2 then "" else paramLoop data (skipTarget data)

/-- Answer-record loop of `parseDNSResponse`: for each of `count` records
skip the owner name (2 bytes for a 0xC0 compression pointer, else the label
loop), check ten bytes of fixed RR header, read TYPE and RDLENGTH, slice
the RDATA, and return the first non-empty ECH string of a type-65 record.
Every truncation check `break`s out, yielding the empty string. -/
def answerLoop (r : List Nat) : Nat → Nat → String
  | 0, _ => ""
  | count + 1, offset =>
    if offset ≥ r.length then ""
    else
      let o1 := if r.getD offset 0 &&& 192 = 192 then offset + 2 else skipName r offset + 1
      if o1 + 10 > r.length then ""
      else
        let dataLen := be16 r (o1 + 8)
        if o1 + 10 + dataLen > r.length then ""
        else
          if be16 r o1 = 65 then
            if parseHTTPSRecord ((r.drop (o1 + 10)).take dataLen) ≠ "" then
              parseHTTPSRecord ((r.drop (o1 + 10)).take dataLen)
            else answerLoop r count (o1 + 10 + dataLen)
          else answerLoop r count (o1 + 10 + dataLen)

/-- Model of `parseDNSResponse`: reject messages shorter than 12 bytes and
messages with `ANCOUNT == 0` with the Go error strings, then skip the
question section (`skipName` from offset 12 plus five bytes) and run the
answer loop. -/
def parseDNSResponse (r : List Nat) : Except String String :=
  if r.length < 12 then .error "响应过短"
  else if be16 r 6 = 0 then .error "无应答记录"
  else .ok (answerLoop r (be16 r 6) (skipName r 12 + 5))

/-- `strings.Split` on a one-byte separator, keeping empty fields
(`Split("", sep)` is `[""]`). -/
def splitOnByte (sep : Nat) : List Nat → List (List Nat)
  | [] => [[]]
  | b :: rest =>
    if b = sep then [] :: splitOnByte sep rest
    else
      match splitOnByte sep rest with
      | [] => [[b]]
      | g :: gs => (b :: g) :: gs

/-- One DNS label as emitted by `buildDNSQuery`: the length byte
(`byte(len(label))`, hence reduced mod 256) followed by the label bytes. -/
def labelEnc (label : List Nat) : List Nat := label.length % 256 :: label

/-- QNAME bytes emitted by `buildDNSQuery` for `domain`, before the zero
terminator: each dot-separated label is length-prefixed. -/
def qnameBytes (domain : List Nat) : List Nat :=
  (splitOnByte 46 domain).flatMap labelEnc

/-- Model of `buildDNSQuery`: fixed 12-byte header (ID=1, RD flag,
QDCOUNT=1), the length-prefixed labels, zero terminator, QTYPE and
QCLASS=1. -/
def buildDNSQuery (domain : List Nat) (qtype : Nat) : List Nat :=
  [0, 1, 1, 0, 0, 1, 0, 0, 0, 0, 0, 0] ++ qnameBytes domain ++
    [0, qtype / 256 % 256, qtype % 256, 0, 1]

/-- HTTPS RDATA of the synthetic answer for ECH bytes `e`: SvcPriority 0,
root TargetName, one SvcParam with key 5 and a 16-bit length prefix. -/
def rdataOf (e : List Nat) : List Nat :=
  [0, 0, 0, 0, 5, e.length / 256, e.length % 256] ++ e

/-- Fixed part of the synthetic answer record: a 0xC00C compression pointer
to the question name, TYPE 65, class IN, TTL 60, and the 16-bit RDLENGTH
`7 + |e|`. -/
def rrHead (e : List Nat) : List Nat :=
  [192, 12, 0, 65, 0, 1, 0, 0, 0, 60, (7 + e.length) / 256, (7 + e.length) % 256]

/-- Well-formed DNS answer message echoing the question of
`buildDNSQuery domain 65`: a response header with QDCOUNT=1 and ANCOUNT=1,
the question section copied from the query, and one type-65 answer RR whose
RDATA carries ECH bytes `e` under SvcParam key 5. -/
def mkSyntheticAnswer (domain e : List Nat) : List Nat :=
  [0, 1, 129, 128, 0, 1, 0, 1, 0, 0, 0, 0] ++ (buildDNSQuery domain 65).drop 12 ++
    rrHead e ++ rdataOf e

/-- Instrumented 16-bit read: `none` models the panic of slicing
`r[i:i+2]` out of range. -/
def be16C (r : List Nat) (i : Nat) : Option Nat :=
  match r[i]?, r[i + 1]? with
  | some a, some b => some (a * 256 + b)
  | _, _ => none

/-- Instrumented slice `r[a:b]`: `none` models the panic on `a > b` or
`b > len(r)`. -/
def sliceC (r : List Nat) (a b : Nat) : Option (List Nat) :=
  if a ≤ b ∧ b ≤ r.length then some ((r.drop a).take (b - a)) else none

/-- Instrumented `skipName`: every byte read is bounds-checked. -/
def skipNameC (r : List Nat) (offset : Nat) : Option Nat :=
  if h1 : offset < r.length then
    match r[offset]? with
    | none => none
    | some b => if h3 : b ≠ 0 then skipNameC r (offset + b + 1) else some offset
  else some offset
termination_by r.length - offset
decreasing_by omega

/-- Instrumented SvcParam loop of `parseHTTPSRecord`. -/
def paramLoopC (data : List Nat) (offset : Nat) : Option String :=
  if h : offset + 4 ≤ data.length then
    match be16C data offset, be16C data (offset + 2) with
    | some key, some vlen =>
      if offset + 4 + vlen > data.length then some ""
      else
        match sliceC data (offset + 4) (offset + 4 + vlen) with
        | some value =>
            if key = 5 then some (base64Encode value) else paramLoopC data (offset + 4 + vlen)
        | none => none
    | _, _ => none
  else some ""
termination_by data.length - offset
decreasing_by omega

/-- Instrumented TargetName skip of `parseHTTPSRecord`. -/
def skipTargetC (data : List Nat) : Option Nat :=
  if 2 < data.length then
    match data[2]? with
    | none => none
    | some b => if b = 0 then some 3 else (skipNameC data 2).map (· + 1)
  else (skipNameC data 2).map (· + 1)

/-- Instrumented `parseHTTPSRecord`. -/
def parseHTTPSRecordC (data : List Nat) : Option String :=
  if data.length < 2 then some ""
  else
    match skipTargetC data with
    | some off => paramLoopC data off
    | none => none

/-- Instrumented answer-record loop of `parseDNSResponse`. -/
def answerLoopC (r : List Nat) : Nat → Nat → Option String
  | 0, _ => some ""
  | count + 1, offset =>
    if offset ≥ r.length then some ""
    else
      match r[offset]? with
      | none => none
      | some b0 =>
        match (if b0 &&& 192 = 192 then some (offset + 2) else (skipNameC r offset).map (· + 1)) with
        | none => none
        | some o1 =>
          if o1 + 10 > r.length then some ""
          else
            match be16C r o1, be16C r (o1 + 8) with
            | some rrType, some dataLen =>
              if o1 + 10 + dataLen > r.length then some ""
              else
                match sliceC r (o1 + 10) (o1 + 10 + dataLen) with
                | none => none
                | some data =>
                  if rrType = 65 then
                    match parseHTTPSRecordC data with
                    | none => none
                    | some ech =>
                        if ech ≠ "" then some ech else answerLoopC r count (o1 + 10 + dataLen)
                  else answerLoopC r count (o1 + 10 + dataLen)
            | _, _ => none

/-- Instrumented `parseDNSResponse`: `none` marks any out-of-bounds access
an un-guarded Go slice or index would have panicked on. -/
def parseDNSResponseC (r : List Nat) : Option (Except String String) :=
  if r.length < 12 then some (.error "响应过短")
  else
    match be16C r 6 with
    | none => none
    | some ancount =>
      if ancount = 0 then some (.error "无应答记录")
      else
        match skipNameC r 12 with
        | none => none
        | some off => (answerLoopC r ancount (off + 5)).map .ok

/-- Colon character (byte 58). -/
def chColon : Char := Char.ofNat 58

/-- Minus character (byte 45). -/
def chMinus : Char := Char.ofNat 45

/-- Plus character (byte 43). -/
def chPlus : Char := Char.ofNat 43

/-- Slash character (byte 47). -/
def chSlash : Char := Char.ofNat 47

/-- Leading-run test: does the first stream start with the second? -/
def startsWithList : List Char → List Char → Bool
  | _, [] => true
  | [], _ :: _ => false
  | a :: as, b :: bs => a = b && startsWithList as bs

/-- Model of `strings.TrimSpace`: drop whitespace from both ends. -/
def trimChars (cs : List Char) : List Char :=
  ((cs.dropWhile (fun c => c.isWhitespace)).reverse.dropWhile (fun c => c.isWhitespace)).reverse

/-- Model of `strings.ToLower` on header keys (ASCII case folding; the
header names compared against are ASCII, and non-ASCII characters are
distinct from them under both Go's and this folding). -/
def lowerChars (cs : List Char) : List Char := cs.map Char.toLower

/-- Header-line filter of `handleHTTP`: the key is the text before the
first colon (`strings.Split(line, ":")[0]`, the whole line when there is no
colon), trimmed and lowercased; `proxy-connection` and
`proxy-authorization` lines are dropped, every other line is forwarded. -/
def keepHeader (line : String) : Bool :=
  let keyLower := String.mk (lowerChars (trimChars (line.toList.takeWhile (fun c => c ≠ chColon))))
  keyLower ≠ "proxy-connection" && keyLower ≠ "proxy-authorization"

/-- Digits at the front of a character stream. -/
def decDigits (cs : List Char) : List Char := cs.takeWhile (fun c => c.isDigit)

/-- Decimal value of a digit stream. -/
def digitsToNat (cs : List Char) : Nat :=
  cs.foldl (fun acc c => acc * 10 + (c.toNat - 48)) 0

/-- Outcome model of `fmt.Sscanf(value, "%d", &length)` on an
already-trimmed header value: an optional sign followed by at least one
decimal digit scans an integer (ignoring trailing text, as `Sscanf` does);
otherwise the scan fails and the Go variable keeps its zero value.  Go
additionally fails on 64-bit overflow; such values are far above the
10-MiB bound the caller checks, so the caller's behaviour is identical. -/
def sscanfInt (s : String) : Option Int :=
  match s.toList with
  | [] => none
  | c :: rest =>
    if c = chMinus then
      (if decDigits rest = [] then none else some (-(digitsToNat (decDigits rest) : Int)))
    else if c = chPlus then
      (if decDigits rest = [] then none else some ((digitsToNat (decDigits rest) : Int)))
    else
      (if decDigits (c :: rest) = [] then none
       else some ((digitsToNat (decDigits (c :: rest)) : Int)))

/-- Body capture of `handleHTTP`: with a non-empty `Content-Length` value,
scan it with `%d`; when `0 < length < 10*1024*1024`, `io.ReadFull` reads
exactly `length` bytes from the client (`rest`), appending nothing when the
client supplies fewer.  Client bytes are modelled as characters. -/
def bodyChars (cl : String) (rest : List Char) : List Char :=
  if cl = "" then []
  else
    if 0 < (sscanfInt cl).getD 0 ∧ (sscanfInt cl).getD 0 < 10485760 then
      (if ((sscanfInt cl).getD 0).toNat ≤ rest.length then
        rest.take ((sscanfInt cl).getD 0).toNat
       else [])
    else []

/-- First frame assembled by `handleHTTP` for a non-CONNECT request:
request line, the retained header lines each followed by CRLF, one blank
CRLF line, then the captured body bytes. -/
def buildFirstFrame (method path httpVersion : String) (headerLines : List String)
    (cl : String) (rest : List Char) : String :=
  (headerLines.foldl
      (fun acc line => if keepHeader line then acc ++ line ++ "\r\n" else acc)
      (method ++ " " ++ path ++ " " ++ httpVersion ++ "\r\n"))
    ++ "\r\n" ++ String.mk (bodyChars cl rest)

/-- Header-map entry for one line in `handleHTTP`: with a colon at index
`idx > 0`, the trimmed lowercased key maps to the trimmed value; other
lines add nothing. -/
def headerEntry (line : String) : Option (String × String) :=
  match line.toList.findIdx? (fun c => c = chColon) with
  | some idx =>
      if idx > 0 then
        some (String.mk (lowerChars (trimChars (line.toList.take idx))),
              String.mk (trimChars (line.toList.drop (idx + 1))))
      else none
  | none => none

/-- Header map of `handleHTTP` as an entry list in insertion order. -/
def headersOf (lines : List String) : List (String × String) :=
  lines.foldl
    (fun acc line =>
      match headerEntry line with
      | some kv => acc ++ [kv]
      | none => acc) []

/-- Go map lookup with the zero value `""` for missing keys; later entries
overwrite earlier ones. -/
def lookupHeader (hs : List (String × String)) (k : String) : String :=
  (((hs.reverse.find? (fun kv => kv.1 = k)).map (fun kv => kv.2))).getD ""

/-- Split a character stream at every whitespace character, keeping empty
runs. -/
def splitWS : List Char → List (List Char)
  | [] => [[]]
  | c :: rest =>
    if c.isWhitespace then [] :: splitWS rest
    else
      match splitWS rest with
      | [] => [[c]]
      | g :: gs => (c :: g) :: gs

/-- Model of `strings.Fields`: the maximal non-empty runs between
whitespace characters. -/
def goFields (s : String) : List String :=
  ((splitWS s.toList).filter (fun t => t ≠ [])).map String.mk

/-- What `handleHTTP` does with a parsed request before the tunnel stage:
close silently, write a response and close, or go on to `handleTunnel`
with a mode, a target and a first frame. -/
inductive HTTPOutcome where
  | silentClose : HTTPOutcome
  | respond : String → HTTPOutcome
  | tunnel : Nat → String → String → HTTPOutcome
deriving DecidableEq

/-- Methods of the non-CONNECT forwarding branch of `handleHTTP`. -/
def supportedMethods : List String :=
  ["GET", "POST", "PUT", "DELETE", "HEAD", "OPTIONS", "PATCH", "TRACE"]

/-- Tunnel mode constant `modeHTTPConnect`. -/
def modeHTTPConnect : Nat := 2

/-- Tunnel mode constant `modeHTTPProxy`. -/
def modeHTTPProxy : Nat := 3

/-- Index of the first slash, `strings.Index(s, "/")`. -/
def slashIdx (cs : List Char) : Option Nat := cs.findIdx? (fun c => c = chSlash)

/-- Front half of `handleHTTP`, after the request line and the header lines
have been read from the client: request-line field split, method dispatch,
authority/path resolution, default port, and first-frame assembly.  `rest`
is the remaining client byte stream (available body bytes). -/
def handleHTTPFront (requestLine : String) (headerLines : List String)
    (rest : List Char) : HTTPOutcome :=
  if (goFields requestLine).length < 3 then .silentClose
  else
    let method := (goFields requestLine).getD 0 ""
    let requestURL := (goFields requestLine).getD 1 ""
    let httpVersion := (goFields requestLine).getD 2 ""
    let headers := headersOf headerLines
    if method = "CONNECT" then .tunnel modeHTTPConnect requestURL ""
    else if method ∈ supportedMethods then
      let tp : String × String :=
        if startsWithList requestURL.toList "http://".toList then
          match slashIdx (requestURL.toList.drop 7) with
          | some idx =>
            if idx > 0 then
              (String.mk ((requestURL.toList.drop 7).take idx),
               String.mk ((requestURL.toList.drop 7).drop idx))
            else (String.mk (requestURL.toList.drop 7), "/")
          | none => (String.mk (requestURL.toList.drop 7), "/")
        else (lookupHeader headers "host", requestURL)
      if tp.1 = "" then .respond "HTTP/1.1 400 Bad Request\r\n\r\n"
      else
        .tunnel modeHTTPProxy
          (if tp.1.toList.contains chColon then tp.1 else tp.1 ++ ":80")
          (buildFirstFrame method tp.2 httpVersion headerLines
            (lookupHeader headers "content-length") rest)
    else .respond "HTTP/1.1 405 Method Not Allowed\r\n\r\n"

/-- Immediate action `handleConnection` takes after reading the first
byte. -/
inductive ConnAction where
  | runSOCKS5 : ConnAction
  | runHTTP : ConnAction
  | closeSilently : ConnAction
deriving DecidableEq

/-- First bytes routed to `handleHTTP`: `C G P H D O T`. -/
def httpFirstBytes : List Nat := [67, 71, 80, 72, 68, 79, 84]

/-- Dispatch of `handleConnection` on the first byte read, paired with the
bytes written back to the client during dispatch.  The function is per
connection: it reads only this connection's first byte, and in the default
branch it only logs before the deferred `Close` runs, so no bytes are
written in any branch. -/
def handleConnection (firstByte : Nat) : ConnAction × List Nat :=
  if firstByte = 5 then (.runSOCKS5, [])
  else if firstByte ∈ httpFirstBytes then (.runHTTP, [])
  else (.closeSilently, [])

/-- Observable effects of one run of `dialWebSocketWithECH`, in order. -/
inductive DialEvent where
  | dialAttempt : Nat → DialEvent
  | refreshStore : DialEvent
  | sleepSec : DialEvent
deriving DecidableEq

/-- Result of `dialWebSocketWithECH`: the WebSocket connection obtained on
a given attempt, or an error string. -/
inductive DialOutcome where
  | conn : Nat → DialOutcome
  | errMsg : String → DialOutcome
deriving DecidableEq

/-- Substring test, `strings.Contains(String.mk s, String.mk sub)`. -/
def hasSubstr (sub : List Char) : List Char → Bool
  | [] => sub.isEmpty
  | c :: rest => startsWithList (c :: rest) sub || hasSubstr sub rest

/-- `strings.Contains(s, "ECH")`. -/
def containsECH (s : String) : Bool := hasSubstr "ECH".toList s.toList

/-- Error string returned after the retry loop falls through. -/
def maxRetriesMsg : String := "连接失败，已达最大重试次数"

/-- Error string of `getECHList` when the store is empty. -/
def echNotLoadedMsg : String := "ECH 配置未加载"

/-- Attempt loop of `dialWebSocketWithECH`, from attempt number `attempt`.
The environment is abstracted by per-attempt oracles: whether the ECH
store read succeeds (`echOk`), the TLS-config build result (`tlsErr`,
`none` = success; in Go this fails only when the system cert pool cannot
be loaded), and the WebSocket dial result (`dialRes`, `none` = success).
The trace records dial attempts, `refreshECH` calls and 1-second sleeps
in order. -/
def dialLoop (echOk : Nat → Bool) (tlsErr dialRes : Nat → Option String)
    (maxRetries attempt : Nat) : DialOutcome × List DialEvent :=
  if h1 : attempt ≤ maxRetries then
    if echOk attempt then
      match tlsErr attempt with
      | some te => (.errMsg te, [])
      | none =>
        match dialRes attempt with
        | none => (.conn attempt, [.dialAttempt attempt])
        | some msg =>
          if h2 : containsECH msg = true ∧ attempt < maxRetries then
            ((dialLoop echOk tlsErr dialRes maxRetries (attempt + 1)).1,
              .dialAttempt attempt :: .refreshStore :: .sleepSec ::
                (dialLoop echOk tlsErr dialRes maxRetries (attempt + 1)).2)
          else (.errMsg msg, [.dialAttempt attempt])
    else
      if h3 : attempt < maxRetries then
        ((dialLoop echOk tlsErr dialRes maxRetries (attempt + 1)).1,
          .refreshStore :: (dialLoop echOk tlsErr dialRes maxRetries (attempt + 1)).2)
      else (.errMsg echNotLoadedMsg, [])
  else (.errMsg maxRetriesMsg, [])
termination_by maxRetries + 1 - attempt
decreasing_by all_goals omega

/-- Model of `dialWebSocketWithECH` after a successful `parseServerAddr`:
the attempt loop starting at 1; falling through the loop yields the
dedicated max-retries error. -/
def dialWebSocketWithECH (echOk : Nat → Bool) (tlsErr dialRes : Nat → Option String)
    (maxRetries : Nat) : DialOutcome × List DialEvent :=
  dialLoop echOk tlsErr dialRes maxRetries 1

/-- Predicate for dial-attempt events. -/
def isDialEvent : DialEvent → Bool
  | .dialAttempt _ => true
  | _ => false

/-- Model of `AndroidProxyClient.GetStatus` over the snapshot returned by
`IsRunning` (the `running` field under the client mutex). -/
def GetStatus (running : Bool) : String := if running then "运行中" else "已停止"

/-- Concatenation of a list of strings in order. -/
def concatLines (ls : List String) : String := ls.foldr (fun a b => a ++ b) ""

theorem foldl_keepHeader (hs : List String) : ∀ acc : String,
    hs.foldl (fun acc line => if keepHeader line then acc ++ line ++ "\r\n" else acc) acc
      = acc ++ concatLines ((hs.filter (fun l => keepHeader l)).map (fun l => l ++ "\r\n")) := by
  induction hs with
  | nil => intro acc; simp [concatLines]
  | cons hline t ih =>
    intro acc
    by_cases hk : keepHeader hline
    · simp only [List.foldl_cons, hk, if_true, ih, List.filter_cons, List.map_cons,
        concatLines, List.foldr_cons]
      simp [String.append_assoc]
    · simp [List.foldl_cons, hk, ih, List.filter_cons]

/-- C3: the first frame built by `handleHTTP` for a non-CONNECT request is
the request line, then exactly the header lines whose key (text before the
first colon), trimmed and lowercased, is neither `proxy-connection` nor
`proxy-authorization` — each verbatim, in original order, followed by CRLF —
then one blank CRLF line, then the body bytes. -/
theorem c3_header_sanitization (m p v : String) (hs : List String) (cl : String)
    (rest : List Char) :
    buildFirstFrame m p v hs cl rest
      = (m ++ " " ++ p ++ " " ++ v ++ "\r\n")
        ++ concatLines ((hs.filter (fun l => keepHeader l)).map (fun l => l ++ "\r\n"))
        ++ "\r\n" ++ String.mk (bodyChars cl rest) := by
  unfold buildFirstFrame
  rw [foldl_keepHeader]

theorem skipName_stop (r : List Nat) (o : Nat) (h : ¬ o < r.length ∨ r.getD o 0 = 0) :
    skipName r o = o := by
  rcases h with h | h
  · conv_lhs => rw [skipName]
    rw [dif_neg h]
  · conv_lhs => rw [skipName]
    rcases Nat.lt_or_ge o r.length with h1 | h1
    · rw [dif_pos h1, dif_neg (by simpa using h)]
    · rw [dif_neg (by omega)]

theorem skipName_step (r : List Nat) (o : Nat) (h1 : o < r.length) (h2 : r.getD o 0 ≠ 0) :
    skipName r o = skipName r (o + r.getD o 0 + 1) := by
  conv_lhs => rw [skipName]
  rw [dif_pos h1, dif_pos h2]

theorem paramLoop_stop (data : List Nat) (o : Nat) (h : ¬ o + 4 ≤ data.length) :
    paramLoop data o = "" := by
  conv_lhs => rw [paramLoop]
  rw [dif_neg h]

theorem paramLoop_found (data : List Nat) (o : Nat) (h : o + 4 ≤ data.length)
    (hlen : ¬ o + 4 + be16 data (o + 2) > data.length) (hkey : be16 data o = 5) :
    paramLoop data o = base64Encode ((data.drop (o + 4)).take (be16 data (o + 2))) := by
  conv_lhs => rw [paramLoop]
  rw [dif_pos h, if_neg hlen, if_pos hkey]

theorem buildFirstFrame_body (m p v : String) (hs : List String) (cl : String)
    (rest : List Char) :
    buildFirstFrame m p v hs cl rest
      = buildFirstFrame m p v hs "" [] ++ String.mk (bodyChars cl rest) := by
  unfold buildFirstFrame
  have hb : bodyChars "" [] = [] := rfl
  rw [hb]
  simp [String.append_assoc]

theorem sscanfInt_empty : sscanfInt "" = none := rfl

/-- C7: body forwarding in the non-CONNECT first frame of `handleHTTP`.
When the `Content-Length` value scans as an integer `N` with
`0 < N < 10*1024*1024` and the client supplies at least `N` bytes, exactly
the first `N` client bytes are appended after the blank line; when the
value scans as an integer outside that open interval or does not scan at
all, the first frame carries no body bytes. -/
theorem c7_content_length_body (m p v : String) (hs : List String) (cl : String)
    (rest : List Char) :
    (∀ N : Int, sscanfInt cl = some N → 0 < N → N < 10485760 → N.toNat ≤ rest.length →
        buildFirstFrame m p v hs cl rest
          = buildFirstFrame m p v hs "" [] ++ String.mk (rest.take N.toNat)) ∧
    ((sscanfInt cl = none ∨ ∃ N : Int, sscanfInt cl = some N ∧ (N ≤ 0 ∨ 10485760 ≤ N)) →
        buildFirstFrame m p v hs cl rest = buildFirstFrame m p v hs "" []) := by
  constructor
  · intro N h0 h1 h2 h3
    rw [buildFirstFrame_body]
    have hne : cl ≠ "" := by
      intro hcl
      rw [hcl, sscanfInt_empty] at h0
      exact Option.noConfusion h0
    have hbody : bodyChars cl rest = rest.take N.toNat := by
      unfold bodyChars
      rw [if_neg hne, h0]
      simp only [Option.getD_some]
      rw [if_pos ⟨h1, h2⟩, if_pos h3]
    rw [hbody]
  · intro hcase
    have hbody : bodyChars cl rest = [] := by
      by_cases hne : cl = ""
      · rw [hne]; rfl
      · unfold bodyChars
        rw [if_neg hne]
        rcases hcase with h | ⟨N, hN, hout⟩
        · rw [h]
          simp
        · rw [hN]
          simp only [Option.getD_some]
          rw [if_neg (by omega)]
    rw [buildFirstFrame_body, hbody]
    simp [String.append_empty]

theorem c7_content_length_body_witness :
    sscanfInt "5" = some 5 ∧
    buildFirstFrame "POST" "/" "HTTP/1.1" ["Host: h"] "5" "abcdefg".toList
      = buildFirstFrame "POST" "/" "HTTP/1.1" ["Host: h"] "" []
        ++ String.mk ("abcdefg".toList.take (5 : Int).toNat) :=
  ⟨by decide,
   (c7_content_length_body "POST" "/" "HTTP/1.1" ["Host: h"] "5" "abcdefg".toList).1 5
     (by decide) (by decide) (by decide) (by decide)⟩

/-- C1: dispatch of an accepted connection on its first byte: 0x05 goes to
the SOCKS5 handler, the bytes `C G P H D O T` go to the HTTP handler, and
every other first byte closes the connection with no bytes written back.
The dispatcher reads only this connection's own first byte. -/
theorem c1_first_byte_dispatch (b : Nat) :
    ((handleConnection b).1 = ConnAction.runSOCKS5 ↔ b = 5) ∧
    ((handleConnection b).1 = ConnAction.runHTTP ↔ b ∈ httpFirstBytes) ∧
    (b ≠ 5 → b ∉ httpFirstBytes → handleConnection b = (ConnAction.closeSilently, [])) := by
  unfold handleConnection
  by_cases h1 : b = 5
  · subst h1
    refine ⟨by simp, ?_, fun h _ => absurd rfl h⟩
    simp [httpFirstBytes]
  · by_cases h2 : b ∈ httpFirstBytes
    · rw [if_neg h1, if_pos h2]
      refine ⟨by simp [h1], by simp [h2], fun _ h => absurd h2 h⟩
    · rw [if_neg h1, if_neg h2]
      refine ⟨by simp [h1], by simp [h2], fun _ _ => rfl⟩

theorem c1_first_byte_dispatch_witness :
    handleConnection 0 = (ConnAction.closeSilently, []) :=
  (c1_first_byte_dispatch 0).2.2 (by decide) (by decide)

/-- C9 counterexample: with `IsRunning()` true, `GetStatus` returns the
Chinese string `运行中`, not the string `Running` the claim names (and
with `IsRunning()` false it returns `已停止`, not `Stopped`). -/
theorem c9_counterexample :
    GetStatus true = "运行中" ∧ GetStatus true ≠ "Running" ∧
    GetStatus false = "已停止" ∧ GetStatus false ≠ "Stopped" := by
  decide

/-- C9 amended: `GetStatus` returns `运行中` (Chinese for running) exactly
when `IsRunning()` is true and `已停止` (stopped) exactly when it is
false. -/
theorem c9_status_strings (b : Bool) :
    (GetStatus b = "运行中" ↔ b = true) ∧ (GetStatus b = "已停止" ↔ b = false) := by
  cases b <;> decide

/-- C8 counterexample: a request line with fewer than three space-separated
fields makes `handleHTTP` return silently (no bytes written), not answer
`HTTP/1.1 400 Bad Request` as the claim states. -/
theorem c8_counterexample :
    handleHTTPFront "GET /\r\n" [] [] = HTTPOutcome.silentClose ∧
    HTTPOutcome.silentClose ≠ HTTPOutcome.respond "HTTP/1.1 400 Bad Request\r\n\r\n" := by
  decide

/-- C8 amended: a request line with fewer than three fields closes the
connection silently, with nothing written back; `HTTP/1.1 400 Bad Request`
is written only for a well-formed request line with a supported non-CONNECT
method in origin form whose `Host` header is missing or empty. -/
theorem c8_malformed_request (requestLine : String) (headerLines : List String)
    (rest : List Char) :
    ((goFields requestLine).length < 3 →
        handleHTTPFront requestLine headerLines rest = HTTPOutcome.silentClose) ∧
    (∀ method requestURL ver others,
        goFields requestLine = method :: requestURL :: ver :: others →
        method ∈ supportedMethods →
        startsWithList requestURL.toList "http://".toList = false →
        lookupHeader (headersOf headerLines) "host" = "" →
        handleHTTPFront requestLine headerLines rest
          = HTTPOutcome.respond "HTTP/1.1 400 Bad Request\r\n\r\n") := by
  constructor
  · intro h
    unfold handleHTTPFront
    rw [if_pos h]
  · intro method requestURL ver others hsplit hmem hpre hhost
    have hne : method ≠ "CONNECT" := by
      simp only [supportedMethods, List.mem_cons, List.mem_singleton] at hmem
      rcases hmem with h | h | h | h | h | h | h | h | h <;> first
        | (subst h; decide)
        | exact absurd h (by simp)
    unfold handleHTTPFront
    rw [hsplit]
    simp only [List.length_cons, List.getD_cons_zero, List.getD_cons_succ]
    rw [if_neg (by omega), if_neg hne, if_pos hmem, hpre]
    simp only [Bool.false_eq_true, if_false]
    rw [if_pos hhost]

theorem c8_malformed_request_witness :
    handleHTTPFront "GET /index.html HTTP/1.1\r\n" ["Accept: x"] []
      = HTTPOutcome.respond "HTTP/1.1 400 Bad Request\r\n\r\n" :=
  (c8_malformed_request "GET /index.html HTTP/1.1\r\n" ["Accept: x"] []).2
    "GET" "/index.html" "HTTP/1.1" [] (by decide) (by decide) (by decide) (by decide)

/-- C5 counterexample: `parseDNSResponse` returns hard errors, not the
empty result, on an input shorter than 12 bytes and on a well-formed header
with `ANCOUNT == 0`. -/
theorem c5_counterexample :
    parseDNSResponse [] = Except.error "响应过短" ∧
    parseDNSResponse [0, 0, 0, 0, 0, 0, 0, 0, 0, 0, 0, 0] = Except.error "无应答记录" ∧
    Except.error "响应过短" ≠ (Except.ok "" : Except String String) := by
  refine ⟨rfl, rfl, ?_⟩
  intro h
  exact Except.noConfusion h

/-- C5 amended: `parseDNSResponse` returns a hard error exactly for inputs
shorter than 12 bytes (`响应过短`) or with `ANCOUNT == 0` (`无应答记录`);
every other input — including truncated answer records — produces a
non-error result (the empty string when no ECH parameter is found). -/
theorem c5_error_behavior (r : List Nat) :
    (parseDNSResponse r = Except.error "响应过短" ↔ r.length < 12) ∧
    (parseDNSResponse r = Except.error "无应答记录" ↔ 12 ≤ r.length ∧ be16 r 6 = 0) ∧
    (12 ≤ r.length → be16 r 6 ≠ 0 → ∃ s, parseDNSResponse r = Except.ok s) := by
  unfold parseDNSResponse
  by_cases h1 : r.length < 12
  · rw [if_pos h1]
    refine ⟨by simp [h1], ?_, by omega⟩
    constructor
    · intro h
      simp only [Except.error.injEq] at h
      exact absurd h (by decide)
    · intro h
      omega
  · rw [if_neg h1]
    by_cases h2 : be16 r 6 = 0
    · rw [if_pos h2]
      refine ⟨?_, by simp [h2]; omega, fun _ hne => absurd h2 hne⟩
      constructor
      · intro h
        simp only [Except.error.injEq] at h
        exact absurd h (by decide)
      · intro h
        omega
    · rw [if_neg h2]
      exact ⟨by simp [h1], by simp [h2], fun _ _ => ⟨_, rfl⟩⟩

theorem c5_error_behavior_witness :
    ∃ s, parseDNSResponse [0, 1, 129, 128, 0, 1, 0, 1, 0, 0, 0, 0] = Except.ok s :=
  (c5_error_behavior [0, 1, 129, 128, 0, 1, 0, 1, 0, 0, 0, 0]).2.2 (by decide) (by decide)

theorem parseHTTPS_rdata (e : List Nat) :
    parseHTTPSRecord ([0, 0, 0, 0, 5, e.length / 256, e.length % 256] ++ e)
      = base64Encode e := by
  have hlen : ([0, 0, 0, 0, 5, e.length / 256, e.length % 256] ++ e).length = 7 + e.length := by
    simp only [List.length_append, List.length_cons, List.length_nil]
  unfold parseHTTPSRecord
  rw [if_neg (by omega)]
  have hst : skipTarget ([0, 0, 0, 0, 5, e.length / 256, e.length % 256] ++ e) = 3 := by
    unfold skipTarget
    rw [if_pos]
    refine ⟨by omega, ?_⟩
    rw [List.getD_append _ _ _ _ (by simp)]
    rfl
  rw [hst]
  have hbe2 : be16 ([0, 0, 0, 0, 5, e.length / 256, e.length % 256] ++ e) (3 + 2)
      = e.length := by
    unfold be16
    rw [List.getD_append _ _ _ _ (by simp), List.getD_append _ _ _ _ (by simp)]
    show e.length / 256 * 256 + e.length % 256 = e.length
    omega
  have hbe1 : be16 ([0, 0, 0, 0, 5, e.length / 256, e.length % 256] ++ e) 3 = 5 := by
    unfold be16
    rw [List.getD_append _ _ _ _ (by simp), List.getD_append _ _ _ _ (by simp)]
    rfl
  rw [paramLoop_found _ _ (by omega) (by rw [hbe2]; omega) hbe1]
  rw [hbe2]
  rw [@List.drop_left' Nat [0, 0, 0, 0, 5, e.length / 256, e.length % 256] e 7 (by simp)]
  rw [List.take_length]

/-- C6 counterexample: HTTPS RDATA whose TargetName is the 2-byte
compression pointer `C0 0C` followed by the SvcParam `key 5, length 1,
value 0xAB`: `parseHTTPSRecord` returns the empty string instead of the
parameter value, while the same RDATA with an uncompressed (root)
TargetName yields the value. -/
theorem c6_counterexample :
    parseHTTPSRecord [0, 0, 192, 12, 0, 5, 0, 1, 171] = "" ∧
    parseHTTPSRecord [0, 0, 0, 0, 5, 0, 1, 171] = base64Encode [171] ∧
    base64Encode [171] ≠ "" := by
  refine ⟨?_, ?_, by decide⟩
  · unfold parseHTTPSRecord skipTarget
    rw [if_neg (by decide), if_neg (by decide)]
    rw [skipName_step _ _ (by decide) (by decide)]
    rw [skipName_stop _ _ (Or.inl (by decide))]
    rw [paramLoop_stop _ _ (by decide)]
  · exact parseHTTPS_rdata [171]

/-- C6 amended: `parseHTTPSRecord` has no compression-pointer case for the
TargetName: a first TargetName byte with the top two bits set (`0xC0`) is
treated as a plain label length of 192, so the SvcParam scan starts 193
bytes past it and a key-5 parameter following a 2-byte compressed
TargetName is not found (for RDATA short enough that the misread skip
overruns it), whereas the same parameter after an uncompressed root
TargetName is returned. -/
theorem c6_compressed_target (ptr : Nat) (e : List Nat) (h : e.length ≤ 187) :
    parseHTTPSRecord ([0, 0, 192, ptr, 0, 5, e.length / 256, e.length % 256] ++ e) = "" ∧
    parseHTTPSRecord ([0, 0, 0, 0, 5, e.length / 256, e.length % 256] ++ e)
      = base64Encode e := by
  refine ⟨?_, parseHTTPS_rdata e⟩
  have hlen : ([0, 0, 192, ptr, 0, 5, e.length / 256, e.length % 256] ++ e).length
      = 8 + e.length := by
    simp only [List.length_append, List.length_cons, List.length_nil]
  have hg2 : ([0, 0, 192, ptr, 0, 5, e.length / 256, e.length % 256] ++ e).getD 2 0 = 192 := by
    rw [List.getD_append _ _ _ _ (by simp)]
    rfl
  unfold parseHTTPSRecord skipTarget
  rw [if_neg (by omega), if_neg (by rw [hg2]; omega)]
  rw [skipName_step _ _ (by omega) (by rw [hg2]; omega)]
  rw [hg2]
  rw [skipName_stop _ _ (Or.inl (by omega))]
  rw [paramLoop_stop _ _ (by omega)]

theorem c6_compressed_target_witness :
    parseHTTPSRecord [0, 0, 192, 0, 0, 5, 0, 2, 9, 8] = "" ∧
    parseHTTPSRecord [0, 0, 0, 0, 5, 0, 2, 9, 8] = base64Encode [9, 8] :=
  c6_compressed_target 0 [9, 8] (by decide)

/-- C4 counterexample: with two attempts both failing with an ECH-tagged
dial error, `dialWebSocketWithECH(2)` returns the second attempt's own
error, not the dedicated max-retries error — the fall-through return after
the loop is unreachable for `maxRetries ≥ 1`. -/
theorem c4_counterexample :
    (dialWebSocketWithECH (fun _ => true) (fun _ => none) (fun _ => some "x ECH y") 2).1
        = DialOutcome.errMsg "x ECH y" ∧
    DialOutcome.errMsg "x ECH y" ≠ DialOutcome.errMsg maxRetriesMsg := by
  have hc : containsECH "x ECH y" = true := by decide
  constructor
  · unfold dialWebSocketWithECH
    rw [dialLoop, dif_pos (by omega : (1:Nat) ≤ 2)]
    dsimp only
    rw [dif_pos ⟨hc, by omega⟩]
    rw [dialLoop, dif_pos (by omega : (2:Nat) ≤ 2)]
    simp
  · intro h
    simp only [DialOutcome.errMsg.injEq] at h
    exact absurd h (by decide)

theorem dialLoop_count (echOk : Nat → Bool) (tlsErr dialRes : Nat → Option String)
    (maxRetries : Nat) :
    ∀ n attempt, maxRetries + 1 - attempt ≤ n →
      ((dialLoop echOk tlsErr dialRes maxRetries attempt).2).countP isDialEvent
        ≤ maxRetries + 1 - attempt := by
  intro n
  induction n with
  | zero =>
    intro attempt h
    rw [dialLoop, dif_neg (by omega)]
    simp
  | succ n ih =>
    intro attempt h
    by_cases h1 : attempt ≤ maxRetries
    · rw [dialLoop, dif_pos h1]
      by_cases he : echOk attempt
      · rw [if_pos he]
        rcases hte : tlsErr attempt with _ | te
        · dsimp only
          rcases hd : dialRes attempt with _ | msg
          · dsimp only
            simp [List.countP_cons, isDialEvent]
            omega
          · dsimp only
            by_cases h2 : containsECH msg = true ∧ attempt < maxRetries
            · rw [dif_pos h2]
              have := ih (attempt + 1) (by omega)
              simp [List.countP_cons, isDialEvent]
              omega
            · rw [dif_neg h2]
              simp [isDialEvent]
              omega
        · dsimp only
          simp
      · rw [if_neg he]
        by_cases h3 : attempt < maxRetries
        · rw [dif_pos h3]
          have := ih (attempt + 1) (by omega)
          simp [List.countP_cons, isDialEvent]
          omega
        · rw [dif_neg h3]
          simp
    · rw [dialLoop, dif_neg h1]
      simp

theorem dialLoop_allfail (echOk : Nat → Bool) (tlsErr dialRes : Nat → Option String)
    (maxRetries : Nat) (msgs : Nat → String)
    (H : ∀ k, 1 ≤ k → k ≤ maxRetries → echOk k = true ∧ tlsErr k = none ∧
        dialRes k = some (msgs k) ∧ containsECH (msgs k) = true) :
    ∀ n attempt, maxRetries + 1 - attempt ≤ n → 1 ≤ attempt → attempt ≤ maxRetries →
      dialLoop echOk tlsErr dialRes maxRetries attempt
        = (DialOutcome.errMsg (msgs maxRetries),
           (List.range' attempt (maxRetries - attempt)).flatMap
               (fun k => [DialEvent.dialAttempt k, DialEvent.refreshStore, DialEvent.sleepSec])
             ++ [DialEvent.dialAttempt maxRetries]) := by
  intro n
  induction n with
  | zero =>
    intro attempt h ha1 ha2
    omega
  | succ n ih =>
    intro attempt h ha1 ha2
    obtain ⟨he, hte, hd, hc⟩ := H attempt ha1 ha2
    rw [dialLoop, dif_pos ha2, if_pos he, hte, hd]
    dsimp only
    by_cases hlt : attempt < maxRetries
    · rw [dif_pos ⟨hc, hlt⟩]
      rw [ih (attempt + 1) (by omega) (by omega) (by omega)]
      have hrange : maxRetries - attempt = (maxRetries - (attempt + 1)) + 1 := by omega
      rw [hrange, List.range'_succ, List.flatMap_cons]
      simp
    · rw [dif_neg (by
        intro hb
        exact hlt hb.2)]
      have hma : attempt = maxRetries := by omega
      subst hma
      rw [Nat.sub_self]
      simp

/-- C4 amended: `dialWebSocketWithECH` makes at most `maxRetries` dial
attempts; every failed attempt whose error contains "ECH" with attempts
remaining is followed by a store refresh, a 1-second sleep and a retry; a
successful dial returns the connection; but when the final attempt fails,
its own error is returned to the caller — the dedicated max-retries error
is only produced when `maxRetries < 1`, so the loop body never ran. -/
theorem c4_retry_policy (echOk : Nat → Bool) (tlsErr dialRes : Nat → Option String)
    (maxRetries : Nat) (msgs : Nat → String) :
    ((dialWebSocketWithECH echOk tlsErr dialRes maxRetries).2.countP isDialEvent
        ≤ maxRetries) ∧
    (maxRetries = 0 →
      dialWebSocketWithECH echOk tlsErr dialRes maxRetries
        = (DialOutcome.errMsg maxRetriesMsg, [])) ∧
    (1 ≤ maxRetries → echOk 1 = true → tlsErr 1 = none → dialRes 1 = none →
      dialWebSocketWithECH echOk tlsErr dialRes maxRetries
        = (DialOutcome.conn 1, [DialEvent.dialAttempt 1])) ∧
    ((∀ k, 1 ≤ k → k ≤ maxRetries → echOk k = true ∧ tlsErr k = none ∧
        dialRes k = some (msgs k) ∧ containsECH (msgs k) = true) → 1 ≤ maxRetries →
      dialWebSocketWithECH echOk tlsErr dialRes maxRetries
        = (DialOutcome.errMsg (msgs maxRetries),
           (List.range' 1 (maxRetries - 1)).flatMap
               (fun k => [DialEvent.dialAttempt k, DialEvent.refreshStore, DialEvent.sleepSec])
             ++ [DialEvent.dialAttempt maxRetries])) := by
  refine ⟨?_, ?_, ?_, ?_⟩
  · have := dialLoop_count echOk tlsErr dialRes maxRetries (maxRetries + 1) 1 (by omega)
    unfold dialWebSocketWithECH
    omega
  · intro h0
    subst h0
    unfold dialWebSocketWithECH
    rw [dialLoop, dif_neg (by omega)]
  · intro h1 he hte hd
    unfold dialWebSocketWithECH
    rw [dialLoop, dif_pos h1, if_pos he, hte, hd]
  · intro H h1
    unfold dialWebSocketWithECH
    exact dialLoop_allfail echOk tlsErr dialRes maxRetries msgs H (maxRetries + 1) 1
      (by omega) (by omega) h1

theorem c4_retry_policy_witness :
    dialWebSocketWithECH (fun _ => true) (fun _ => none) (fun _ => some "tls: ECH rejected") 2
      = (DialOutcome.errMsg "tls: ECH rejected",
         [DialEvent.dialAttempt 1, DialEvent.refreshStore, DialEvent.sleepSec,
          DialEvent.dialAttempt 2]) := by
  have h := (c4_retry_policy (fun _ => true) (fun _ => none)
      (fun _ => some "tls: ECH rejected") 2 (fun _ => "tls: ECH rejected")).2.2.2
    (fun k _ _ => ⟨rfl, rfl, rfl, by decide⟩) (by omega)
  simpa using h

theorem getElemD (l : List Nat) (i : Nat) (h : i < l.length) : l[i]? = some (l.getD i 0) := by
  rw [List.getElem?_eq_getElem h, List.getD_eq_getElem l 0 h]

theorem be16C_eq (r : List Nat) (i : Nat) (h : i + 1 < r.length) :
    be16C r i = some (be16 r i) := by
  unfold be16C be16
  rw [getElemD r i (by omega), getElemD r (i + 1) h]

theorem paramLoopC_eq (data : List Nat) (o : Nat) :
    paramLoopC data o = some (paramLoop data o) := by
  induction o using paramLoop.induct data with
  | case1 o h1 h2 =>
    rw [paramLoopC, dif_pos h1, be16C_eq data o (by omega), be16C_eq data (o + 2) (by omega)]
    dsimp only
    rw [if_pos h2]
    conv_rhs => rw [paramLoop]
    rw [dif_pos h1, if_pos h2]
  | case2 o h1 h2 h3 =>
    rw [paramLoopC, dif_pos h1, be16C_eq data o (by omega), be16C_eq data (o + 2) (by omega)]
    dsimp only
    rw [if_neg h2]
    unfold sliceC
    rw [if_pos ⟨by omega, by omega⟩]
    dsimp only
    rw [if_pos h3]
    have harg : o + 4 + be16 data (o + 2) - (o + 4) = be16 data (o + 2) := by omega
    rw [harg]
    conv_rhs => rw [paramLoop]
    rw [dif_pos h1, if_neg h2, if_pos h3]
  | case3 o h1 h2 h3 ih =>
    rw [paramLoopC, dif_pos h1, be16C_eq data o (by omega), be16C_eq data (o + 2) (by omega)]
    dsimp only
    rw [if_neg h2]
    unfold sliceC
    rw [if_pos ⟨by omega, by omega⟩]
    dsimp only
    rw [if_neg h3, ih]
    conv_rhs => rw [paramLoop]
    rw [dif_pos h1, if_neg h2, if_neg h3]
  | case4 o h1 =>
    rw [paramLoopC, dif_neg h1, paramLoop_stop data o h1]

theorem skipNameC_eq (r : List Nat) (o : Nat) : skipNameC r o = some (skipName r o) := by
  induction o using skipName.induct r with
  | case1 o h1 h2 ih =>
    rw [skipNameC, dif_pos h1, getElemD r o h1]
    dsimp only
    rw [dif_pos h2, ih]
    rw [skipName_step r o h1 h2]
  | case2 o h1 h2 =>
    rw [skipNameC, dif_pos h1, getElemD r o h1]
    dsimp only
    rw [dif_neg h2]
    rw [skipName_stop r o (Or.inr (by simpa using h2))]
  | case3 o h1 =>
    rw [skipNameC, dif_neg h1]
    rw [skipName_stop r o (Or.inl h1)]

theorem skipTargetC_eq (data : List Nat) : skipTargetC data = some (skipTarget data) := by
  unfold skipTargetC skipTarget
  by_cases h1 : 2 < data.length
  · rw [if_pos h1, getElemD data 2 h1]
    dsimp only
    by_cases h2 : data.getD 2 0 = 0
    · rw [if_pos h2, if_pos ⟨h1, h2⟩]
    · rw [if_neg h2, if_neg (by
        intro hb
        exact h2 hb.2)]
      rw [skipNameC_eq data 2]
      rfl
  · rw [if_neg h1, if_neg (by
      intro hb
      exact h1 hb.1)]
    rw [skipNameC_eq data 2]
    rfl

theorem parseHTTPSRecordC_eq (data : List Nat) :
    parseHTTPSRecordC data = some (parseHTTPSRecord data) := by
  unfold parseHTTPSRecordC parseHTTPSRecord
  by_cases h : data.length < 2
  · rw [if_pos h, if_pos h]
  · rw [if_neg h, if_neg h, skipTargetC_eq data]
    dsimp only
    rw [paramLoopC_eq]

theorem answerLoopC_eq (r : List Nat) : ∀ count offset,
    answerLoopC r count offset = some (answerLoop r count offset) := by
  intro count
  induction count with
  | zero =>
    intro offset
    rfl
  | succ count ih =>
    intro offset
    rw [answerLoopC, answerLoop]
    by_cases h0 : offset ≥ r.length
    · rw [if_pos h0, if_pos h0]
    · rw [if_neg h0, if_neg h0]
      rw [getElemD r offset (by omega)]
      dsimp only
      by_cases hp : r.getD offset 0 &&& 192 = 192
      · rw [if_pos hp, if_pos hp]
        dsimp only
        by_cases h10 : offset + 2 + 10 > r.length
        · rw [if_pos h10, if_pos h10]
        · rw [if_neg h10, if_neg h10]
          rw [be16C_eq r (offset + 2) (by omega), be16C_eq r (offset + 2 + 8) (by omega)]
          dsimp only
          by_cases hb : offset + 2 + 10 + be16 r (offset + 2 + 8) > r.length
          · rw [if_pos hb, if_pos hb]
          · rw [if_neg hb, if_neg hb]
            unfold sliceC
            rw [if_pos ⟨by omega, by omega⟩]
            dsimp only
            have harg : offset + 2 + 10 + be16 r (offset + 2 + 8) - (offset + 2 + 10)
                = be16 r (offset + 2 + 8) := by omega
            rw [harg]
            by_cases ht : be16 r (offset + 2) = 65
            · rw [if_pos ht, if_pos ht, parseHTTPSRecordC_eq]
              dsimp only
              by_cases he :
                  parseHTTPSRecord ((r.drop (offset + 2 + 10)).take (be16 r (offset + 2 + 8))) ≠ ""
              · rw [if_pos he, if_pos he]
              · rw [if_neg he, if_neg he, ih]
            · rw [if_neg ht, if_neg ht, ih]
      · rw [if_neg hp, if_neg hp, skipNameC_eq r offset]
        simp only [Option.map_some']
        by_cases h10 : skipName r offset + 1 + 10 > r.length
        · rw [if_pos h10, if_pos h10]
        · rw [if_neg h10, if_neg h10]
          rw [be16C_eq r (skipName r offset + 1) (by omega),
            be16C_eq r (skipName r offset + 1 + 8) (by omega)]
          dsimp only
          by_cases hb : skipName r offset + 1 + 10 + be16 r (skipName r offset + 1 + 8) > r.length
          · rw [if_pos hb, if_pos hb]
          · rw [if_neg hb, if_neg hb]
            unfold sliceC
            rw [if_pos ⟨by omega, by omega⟩]
            dsimp only
            have harg : skipName r offset + 1 + 10 + be16 r (skipName r offset + 1 + 8)
                - (skipName r offset + 1 + 10) = be16 r (skipName r offset + 1 + 8) := by omega
            rw [harg]
            by_cases ht : be16 r (skipName r offset + 1) = 65
            · rw [if_pos ht, if_pos ht, parseHTTPSRecordC_eq]
              dsimp only
              by_cases he : parseHTTPSRecord
                  ((r.drop (skipName r offset + 1 + 10)).take
                    (be16 r (skipName r offset + 1 + 8))) ≠ ""
              · rw [if_pos he, if_pos he]
              · rw [if_neg he, if_neg he, ih]
            · rw [if_neg ht, if_neg ht, ih]

theorem parseDNSResponseC_eq (r : List Nat) :
    parseDNSResponseC r = some (parseDNSResponse r) := by
  unfold parseDNSResponseC parseDNSResponse
  by_cases h : r.length < 12
  · rw [if_pos h, if_pos h]
  · rw [if_neg h, if_neg h, be16C_eq r 6 (by omega)]
    dsimp only
    by_cases ha : be16 r 6 = 0
    · rw [if_pos ha, if_pos ha]
    · rw [if_neg ha, if_neg ha, skipNameC_eq r 12]
      dsimp only
      rw [answerLoopC_eq]
      rfl

/-- C10: the DNS parsers are total and memory safe on arbitrary input.  In
the instrumented embedding, where every Go slice or index operation
returns `none` when it would be out of range (the panic branch),
`parseDNSResponseC` and `parseHTTPSRecordC` return `some` of the plain
result for every byte string: no indexing operation ever takes the
out-of-range branch, so arbitrary untrusted DNS bytes cannot crash the
parser. -/
theorem c10_parser_safety :
    (∀ r : List Nat, parseDNSResponseC r = some (parseDNSResponse r)) ∧
    (∀ data : List Nat, parseHTTPSRecordC data = some (parseHTTPSRecord data)) :=
  ⟨parseDNSResponseC_eq, parseHTTPSRecordC_eq⟩

theorem b64v_b64c : ∀ n : Nat, n < 64 → b64v (b64c n) = some n := by decide

theorem b64c_ne_pad : ∀ n : Nat, n < 64 → b64c n ≠ padChar := by decide

theorem b64_roundtrip (bs : List Nat) (h : ∀ x ∈ bs, x < 256) :
    b64decChars (b64chars bs) = some bs := by
  induction bs using b64chars.induct with
  | case1 => rfl
  | case2 a =>
    have ha : a < 256 := h a (by simp)
    rw [b64chars, b64decChars]
    rw [if_pos rfl, if_pos rfl]
    rw [b64v_b64c (a / 4) (by omega), b64v_b64c (a % 4 * 16) (by omega)]
    dsimp only
    rw [if_pos rfl]
    congr 1
    congr 1
    omega
  | case3 a b =>
    have ha : a < 256 := h a (by simp)
    have hb : b < 256 := h b (by simp)
    rw [b64chars, b64decChars]
    rw [if_pos rfl, if_pos rfl]
    rw [b64v_b64c (a / 4) (by omega), b64v_b64c (a % 4 * 16 + b / 16) (by omega)]
    dsimp only
    rw [if_neg (b64c_ne_pad (b % 16 * 4) (by omega))]
    rw [b64v_b64c (b % 16 * 4) (by omega)]
    dsimp only
    congr 1
    have e1 : a / 4 * 4 + (a % 4 * 16 + b / 16) / 16 = a := by omega
    have e2 : (a % 4 * 16 + b / 16) % 16 * 16 + b % 16 * 4 / 4 = b := by omega
    rw [e1, e2]
  | case4 a b cc rest ih =>
    have ha : a < 256 := h a (by simp)
    have hb : b < 256 := h b (by simp)
    have hc : cc < 256 := h cc (by simp)
    have hrest : ∀ x ∈ rest, x < 256 := fun x hx => h x (by simp [hx])
    rw [b64chars, b64decChars]
    rw [if_neg (b64c_ne_pad (cc % 64) (by omega))]
    rw [b64v_b64c (a / 4) (by omega), b64v_b64c (a % 4 * 16 + b / 16) (by omega),
      b64v_b64c (b % 16 * 4 + cc / 64) (by omega), b64v_b64c (cc % 64) (by omega)]
    dsimp only
    rw [ih hrest]
    dsimp only
    congr 1
    have e1 : a / 4 * 4 + (a % 4 * 16 + b / 16) / 16 = a := by omega
    have e2 : (a % 4 * 16 + b / 16) % 16 * 16 + (b % 16 * 4 + cc / 64) / 4 = b := by omega
    have e3 : (b % 16 * 4 + cc / 64) % 4 * 64 + cc % 64 = cc := by omega
    rw [e1, e2, e3]

theorem getD_at (pre tail : List Nat) (n k : Nat) (h : n = pre.length + k) :
    (pre ++ tail).getD n 0 = tail.getD k 0 := by
  subst h
  rw [List.getD_append_right _ _ _ _ (by omega)]
  congr 1
  omega

theorem be16_at (pre tail : List Nat) (n k : Nat) (h : n = pre.length + k) :
    be16 (pre ++ tail) n = be16 tail k := by
  unfold be16
  rw [getD_at pre tail n k h, getD_at pre tail (n + 1) (k + 1) (by omega)]

theorem drop_at (pre tail : List Nat) (n : Nat) (h : n = pre.length) :
    (pre ++ tail).drop n = tail := by
  subst h
  exact List.drop_left pre tail

theorem b64chars_nil_iff (bs : List Nat) : b64chars bs = [] ↔ bs = [] := by
  cases bs with
  | nil => simp [b64chars]
  | cons a t =>
    cases t with
    | nil => simp [b64chars]
    | cons b t2 =>
      cases t2 with
      | nil => simp [b64chars]
      | cons c t3 => simp [b64chars]

theorem base64Encode_empty_iff (bs : List Nat) : base64Encode bs = "" ↔ bs = [] := by
  unfold base64Encode
  constructor
  · intro h
    exact (b64chars_nil_iff bs).mp (congrArg String.data h)
  · intro h
    subst h
    rfl

theorem skipName_flat (labels : List (List Nat)) : ∀ pre post : List Nat,
    (∀ l ∈ labels, 1 ≤ l.length ∧ l.length ≤ 255) →
    post.getD 0 0 = 0 →
    skipName (pre ++ (labels.flatMap labelEnc ++ post)) pre.length
      = pre.length + (labels.flatMap labelEnc).length := by
  induction labels with
  | nil =>
    intro pre post hl hp
    simp only [List.flatMap_nil, List.nil_append, List.length_nil, Nat.add_zero]
    rw [skipName_stop]
    right
    rw [getD_at pre post pre.length 0 (by omega)]
    exact hp
  | cons l ls ih =>
    intro pre post hl hp
    obtain ⟨hl1, hl255⟩ := hl l (by simp)
    have hrl : ∀ x ∈ ls, 1 ≤ x.length ∧ x.length ≤ 255 := fun x hx => hl x (by simp [hx])
    have hmod : l.length % 256 = l.length := Nat.mod_eq_of_lt (by omega)
    simp only [List.flatMap_cons]
    have hgd : (pre ++ ((labelEnc l ++ ls.flatMap labelEnc) ++ post)).getD pre.length 0
        = l.length % 256 := by
      rw [getD_at pre _ pre.length 0 (by omega)]
      rfl
    have hlen : (pre ++ ((labelEnc l ++ ls.flatMap labelEnc) ++ post)).length
        = pre.length + (l.length + 1) + (ls.flatMap labelEnc).length + post.length := by
      simp [labelEnc]
      omega
    rw [skipName_step _ _ (by omega) (by rw [hgd, hmod]; omega)]
    rw [hgd, hmod]
    have hassoc : pre ++ ((labelEnc l ++ ls.flatMap labelEnc) ++ post)
        = (pre ++ labelEnc l) ++ (ls.flatMap labelEnc ++ post) := by
      simp [List.append_assoc]
    have hofs : pre.length + l.length + 1 = (pre ++ labelEnc l).length := by
      simp [labelEnc]
      omega
    rw [hassoc, hofs, ih (pre ++ labelEnc l) post hrl hp]
    simp [labelEnc]
    omega

theorem answerLoop_ptr65 (r : List Nat) (count offset : Nat)
    (h0 : ¬ offset ≥ r.length) (hp : r.getD offset 0 &&& 192 = 192)
    (h10 : ¬ offset + 2 + 10 > r.length)
    (hb : ¬ offset + 2 + 10 + be16 r (offset + 2 + 8) > r.length)
    (ht : be16 r (offset + 2) = 65) :
    answerLoop r (count + 1) offset
      = if parseHTTPSRecord ((r.drop (offset + 2 + 10)).take (be16 r (offset + 2 + 8))) ≠ ""
        then parseHTTPSRecord ((r.drop (offset + 2 + 10)).take (be16 r (offset + 2 + 8)))
        else answerLoop r count (offset + 2 + 10 + be16 r (offset + 2 + 8)) := by
  conv_lhs => rw [answerLoop]
  rw [if_neg h0]
  dsimp only
  rw [if_pos hp, if_neg h10, if_neg hb, if_pos ht]

theorem rr_getD0 (e : List Nat) : (rrHead e ++ rdataOf e).getD 0 0 = 192 := rfl

theorem rr_be16_2 (e : List Nat) : be16 (rrHead e ++ rdataOf e) 2 = 65 := rfl

theorem rr_be16_10 (e : List Nat) : be16 (rrHead e ++ rdataOf e) 10 = 7 + e.length := by
  show (7 + e.length) / 256 * 256 + (7 + e.length) % 256 = 7 + e.length
  omega

theorem c2_main (domain e : List Nat)
    (hl : ∀ l ∈ splitOnByte 46 domain, 1 ≤ l.length ∧ l.length ≤ 255)
    (he : e.length ≤ 65528) :
    parseDNSResponse (mkSyntheticAnswer domain e) = Except.ok (base64Encode e) := by
  have hq : buildDNSQuery domain 65
      = [0, 1, 1, 0, 0, 1, 0, 0, 0, 0, 0, 0]
        ++ ((splitOnByte 46 domain).flatMap labelEnc ++ [0, 0, 65, 0, 1]) := rfl
  have hdrop : (buildDNSQuery domain 65).drop 12
      = (splitOnByte 46 domain).flatMap labelEnc ++ [0, 0, 65, 0, 1] := by
    rw [hq]
    exact drop_at _ _ 12 rfl
  have hR : mkSyntheticAnswer domain e
      = [0, 1, 129, 128, 0, 1, 0, 1, 0, 0, 0, 0]
        ++ ((splitOnByte 46 domain).flatMap labelEnc
          ++ ([0, 0, 65, 0, 1] ++ (rrHead e ++ rdataOf e))) := by
    unfold mkSyntheticAnswer
    rw [hdrop]
    simp only [List.append_assoc]
  rw [hR]
  have hRlen : ([0, 1, 129, 128, 0, 1, 0, 1, 0, 0, 0, 0]
      ++ ((splitOnByte 46 domain).flatMap labelEnc
        ++ ([0, 0, 65, 0, 1] ++ (rrHead e ++ rdataOf e)))).length
      = 36 + ((splitOnByte 46 domain).flatMap labelEnc).length + e.length := by
    simp only [List.length_append, List.length_cons, List.length_nil, rrHead, rdataOf]
    omega
  have hanc : be16 ([0, 1, 129, 128, 0, 1, 0, 1, 0, 0, 0, 0]
      ++ ((splitOnByte 46 domain).flatMap labelEnc
        ++ ([0, 0, 65, 0, 1] ++ (rrHead e ++ rdataOf e)))) 6 = 1 := by
    unfold be16
    rw [List.getD_append _ _ _ _ (by simp), List.getD_append _ _ _ _ (by simp)]
    rfl
  unfold parseDNSResponse
  rw [if_neg (by omega), if_neg (by rw [hanc]; omega), hanc]
  have hskip : skipName ([0, 1, 129, 128, 0, 1, 0, 1, 0, 0, 0, 0]
      ++ ((splitOnByte 46 domain).flatMap labelEnc
        ++ ([0, 0, 65, 0, 1] ++ (rrHead e ++ rdataOf e)))) 12
      = 12 + ((splitOnByte 46 domain).flatMap labelEnc).length := by
    have hsa : ([0, 0, 65, 0, 1] ++ (rrHead e ++ rdataOf e)).getD 0 0 = 0 := rfl
    have := skipName_flat (splitOnByte 46 domain)
      [0, 1, 129, 128, 0, 1, 0, 1, 0, 0, 0, 0]
      ([0, 0, 65, 0, 1] ++ (rrHead e ++ rdataOf e)) hl hsa
    simpa using this
  rw [hskip]
  have hform3 : ([0, 1, 129, 128, 0, 1, 0, 1, 0, 0, 0, 0]
      ++ ((splitOnByte 46 domain).flatMap labelEnc
        ++ ([0, 0, 65, 0, 1] ++ (rrHead e ++ rdataOf e))))
      = ([0, 1, 129, 128, 0, 1, 0, 1, 0, 0, 0, 0]
          ++ ((splitOnByte 46 domain).flatMap labelEnc ++ [0, 0, 65, 0, 1]))
        ++ (rrHead e ++ rdataOf e) := by
    simp only [List.append_assoc]
  have hprelen : ([0, 1, 129, 128, 0, 1, 0, 1, 0, 0, 0, 0]
      ++ ((splitOnByte 46 domain).flatMap labelEnc ++ [0, 0, 65, 0, 1])).length
      = 17 + ((splitOnByte 46 domain).flatMap labelEnc).length := by
    simp only [List.length_append, List.length_cons, List.length_nil]
    omega
  have hgdo : ([0, 1, 129, 128, 0, 1, 0, 1, 0, 0, 0, 0]
      ++ ((splitOnByte 46 domain).flatMap labelEnc
        ++ ([0, 0, 65, 0, 1] ++ (rrHead e ++ rdataOf e)))).getD
      (12 + ((splitOnByte 46 domain).flatMap labelEnc).length + 5) 0 = 192 := by
    rw [hform3, getD_at _ _ _ 0 (by rw [hprelen]; omega)]
    exact rr_getD0 e
  have hbe2 : be16 ([0, 1, 129, 128, 0, 1, 0, 1, 0, 0, 0, 0]
      ++ ((splitOnByte 46 domain).flatMap labelEnc
        ++ ([0, 0, 65, 0, 1] ++ (rrHead e ++ rdataOf e))))
      (12 + ((splitOnByte 46 domain).flatMap labelEnc).length + 5 + 2) = 65 := by
    rw [hform3, be16_at _ _ _ 2 (by rw [hprelen]; omega)]
    exact rr_be16_2 e
  have hbe10 : be16 ([0, 1, 129, 128, 0, 1, 0, 1, 0, 0, 0, 0]
      ++ ((splitOnByte 46 domain).flatMap labelEnc
        ++ ([0, 0, 65, 0, 1] ++ (rrHead e ++ rdataOf e))))
      (12 + ((splitOnByte 46 domain).flatMap labelEnc).length + 5 + 2 + 8)
      = 7 + e.length := by
    rw [hform3, be16_at _ _ _ 10 (by rw [hprelen]; omega)]
    exact rr_be16_10 e
  have hstep := answerLoop_ptr65 ([0, 1, 129, 128, 0, 1, 0, 1, 0, 0, 0, 0]
      ++ ((splitOnByte 46 domain).flatMap labelEnc
        ++ ([0, 0, 65, 0, 1] ++ (rrHead e ++ rdataOf e)))) 0
      (12 + ((splitOnByte 46 domain).flatMap labelEnc).length + 5)
      (by omega) (by rw [hgdo]; rfl) (by omega) (by rw [hbe10]; omega) hbe2
  rw [Nat.zero_add] at hstep
  rw [hbe10] at hstep
  have hform4 : ([0, 1, 129, 128, 0, 1, 0, 1, 0, 0, 0, 0]
      ++ ((splitOnByte 46 domain).flatMap labelEnc
        ++ ([0, 0, 65, 0, 1] ++ (rrHead e ++ rdataOf e))))
      = ([0, 1, 129, 128, 0, 1, 0, 1, 0, 0, 0, 0]
          ++ ((splitOnByte 46 domain).flatMap labelEnc
            ++ ([0, 0, 65, 0, 1] ++ rrHead e)))
        ++ rdataOf e := by
    simp only [List.append_assoc]
  have hpre4len : ([0, 1, 129, 128, 0, 1, 0, 1, 0, 0, 0, 0]
      ++ ((splitOnByte 46 domain).flatMap labelEnc
        ++ ([0, 0, 65, 0, 1] ++ rrHead e))).length
      = 29 + ((splitOnByte 46 domain).flatMap labelEnc).length := by
    simp only [List.length_append, List.length_cons, List.length_nil, rrHead]
    omega
  have hslice : (([0, 1, 129, 128, 0, 1, 0, 1, 0, 0, 0, 0]
      ++ ((splitOnByte 46 domain).flatMap labelEnc
        ++ ([0, 0, 65, 0, 1] ++ (rrHead e ++ rdataOf e)))).drop
      (12 + ((splitOnByte 46 domain).flatMap labelEnc).length + 5 + 2 + 10))
      = rdataOf e := by
    rw [hform4]
    exact drop_at _ _ _ (by rw [hpre4len]; omega)
  rw [hslice] at hstep
  have htake : (rdataOf e).take (7 + e.length) = rdataOf e := by
    have hrl : (rdataOf e).length = 7 + e.length := by
      simp only [rdataOf, List.length_append, List.length_cons, List.length_nil]
    rw [← hrl, List.take_length]
  rw [htake] at hstep
  have hparse : parseHTTPSRecord (rdataOf e) = base64Encode e := parseHTTPS_rdata e
  rw [hparse] at hstep
  rw [hstep]
  by_cases he0 : e = []
  · subst he0
    rw [if_neg (by simp [base64Encode, b64chars])]
    rfl
  · rw [if_pos (fun hcon => he0 ((base64Encode_empty_iff e).mp (by simpa using hcon)))]

/-- C2: the DNS query builder composed with the response parser round-trips
the ECH bytes.  For every domain whose dot-separated labels each have 1 to
255 bytes and every byte string `e` with `7 + |e|` below the 16-bit
RDLENGTH bound, parsing a well-formed answer message that echoes the
question of `buildDNSQuery domain 65` and carries one type-65 answer RR
whose RDATA holds SvcParam key 5 with value `e` returns exactly the
standard base64 encoding of `e`, and decoding that string (as `prepareECH`
does) gives back exactly `e`. -/
theorem c2_dns_ech_roundtrip (domain e : List Nat)
    (hl : ∀ l ∈ splitOnByte 46 domain, 1 ≤ l.length ∧ l.length ≤ 255)
    (he : e.length ≤ 65528) (hbytes : ∀ x ∈ e, x < 256) :
    parseDNSResponse (mkSyntheticAnswer domain e) = Except.ok (base64Encode e) ∧
    base64Decode (base64Encode e) = some e :=
  ⟨c2_main domain e hl he, by
    unfold base64Decode base64Encode
    exact b64_roundtrip e hbytes⟩

theorem c2_dns_ech_roundtrip_witness :
    parseDNSResponse (mkSyntheticAnswer [97, 98, 46, 99] [1, 255, 3])
      = Except.ok (base64Encode [1, 255, 3]) ∧
    base64Decode (base64Encode [1, 255, 3]) = some [1, 255, 3] :=
  c2_dns_ech_roundtrip [97, 98, 46, 99] [1, 255, 3] (by decide) (by decide) (by decide)
